import Mathlib

/-
Verification development for the ithena-cli observability pipeline.

Shallow embedding of the Go sources:
  wrapper        (stdio proxy, request store, idToString)   -- src/unnamed/part_004
  observability  (sink, batcher, dual-sink dispatch, retry) -- src/notes/proposal.md part 2
  localstore     (SaveBatch, QueryLogs, GetLogByID)         -- src/localstore/localstore.go
  placeholder    (ResolvePlaceholders, resolveValue)        -- src/placeholder/resolver.go
  types          (AuditRecord)                              -- src/telemetry part 2

Go interface values holding unmarshalled JSON are modelled by `Option JsonValue`
(a nil interface, which is what both an absent member and a JSON null literal
unmarshal to, is `none`).  Machine ints are modelled by `Int`; no arithmetic in
the modelled code overflows in the scenarios covered by the claims.
-/

set_option autoImplicit false

/-- Model of an unmarshalled JSON value (the Go `interface\x7b\x7d` produced by
`encoding/json`).  Numbers are restricted to the integer-valued ones, which are
the only numbers the verified claims mention; `null` appearing nested inside an
array or object is the `null` constructor, while a top-level Go nil interface is
modelled as `none` at the use site. -/
inductive JsonValue where
  | null : JsonValue
  | bool : Bool → JsonValue
  | num : Int → JsonValue
  | str : String → JsonValue
  | arr : List JsonValue → JsonValue
  | obj : List (String × JsonValue) → JsonValue

/-- Lookup of a key in a JSON object, mirroring a Go map index on
`map[string]interface\x7b\x7d` (first binding wins; the unmarshalled Go map has
unique keys). -/
def JsonValue.objLookup (v : JsonValue) (key : String) : Option JsonValue :=
  match v with
  | .obj kvs => (kvs.find? (fun kv => kv.fst = key)).map Prod.snd
  | _ => none

/-- Model of a JSON-RPC id after `encoding/json` unmarshalling into a Go
interface: a JSON string becomes a Go `string`, and a JSON number becomes a Go
`float64`.  The claims only concern integer-valued numeric ids, so the numeric
case carries an `Int`; note that the JSON texts `1` and `1.0` unmarshal to the
same `float64`, hence to the same `num 1` here. -/
inductive JsonRpcId where
  | str : String → JsonRpcId
  | num : Int → JsonRpcId
deriving DecidableEq

/-- Embedding of `idToString` (wrapper package): a string id is returned
verbatim; a numeric id is formatted by `strconv.FormatFloat(v, 'f', -1, 64)`,
which for an integer-valued float64 prints the plain decimal digits with no
decimal point and no exponent — i.e. `toString` of the integer. -/
def idToString : JsonRpcId → String
  | .str s => s
  | .num n => toString n

/-- Payload stored per request, embedding `requestInfo` (method, startTime,
params); time is modelled as integer milliseconds. -/
structure RequestInfo where
  method : String
  startTime : Int
  params : Option JsonValue

/-- The in-memory request store `map[interface\x7b\x7d]requestInfo`, keyed (as
the Go code does via `idToString`) by the canonical id string. -/
def ReqStore : Type := String → Option RequestInfo

/-- The empty request store, embedding `newRequestStore`. -/
def ReqStore.empty : ReqStore := fun _ => none

namespace ReqStore

/-- Embedding of `requestStore.Store`: key the entry by `idToString id`,
overwriting any previous entry under the same key. -/
def Store (rs : ReqStore) (id : JsonRpcId) (method : String) (startTime : Int)
    (params : Option JsonValue) : ReqStore :=
  fun k => if k = idToString id then some ⟨method, startTime, params⟩ else rs k

/-- Embedding of `requestStore.Retrieve`: look the canonical id string up;
on a hit remove the entry and return it, otherwise return nothing and leave
the store unchanged. -/
def Retrieve (rs : ReqStore) (id : JsonRpcId) : Option RequestInfo × ReqStore :=
  match rs (idToString id) with
  | some info => (some info, fun k => if k = idToString id then none else rs k)
  | none => (none, rs)

end ReqStore

/-- Modelled from the spec: the JSON-RPC request envelope `(id, method, params)`
of the `jsonrpc` package, which is not under src/ (only its callers are).
`id = none` models both an absent id member and an explicit JSON null id, the
two cases in which the Go field `ID interface\x7b\x7d` is nil. -/
structure Request where
  id : Option JsonRpcId
  method : String
  params : Option JsonValue

/-- Modelled from the spec: the JSON-RPC response envelope `(id, result, error)`
of the `jsonrpc` package, which is not under src/.  `result` and `error` are
`none` exactly when the corresponding Go interface field is nil, i.e. when the
member is absent or JSON null. -/
structure Response where
  id : Option JsonRpcId
  result : Option JsonValue
  error : Option JsonValue

/-- Embedding of `types.AuditRecord`.  Go pointer fields and interface fields
are `Option`; `id`, `status` and `timestamp` are plain strings as in the
source. -/
structure AuditRecord where
  id : String
  mcpMethod : Option String
  toolName : Option String
  durationMs : Option Int
  status : String
  proxyVersion : Option String
  targetServerAlias : Option String
  requestPreview : Option JsonValue
  responsePreview : Option JsonValue
  errorDetails : Option JsonValue
  timestamp : String

/-- Embedding of the tool-name extraction inside `RecordRpcCompletion`: when
the method is `tool/call` and the request params form a JSON object whose
`tool_name` member is a string, that string is extracted. -/
def extractToolName (method : Option String) (requestParams : Option JsonValue) :
    Option String :=
  if method = some "tool/call" then
    match requestParams with
    | some p =>
      match p.objLookup "tool_name" with
      | some (.str tn) => some tn
      | _ => none
    | none => none
  else none

/-- Embedding of `observability.RecordRpcCompletion` up to the point where the
record is handed to `SendLog`: builds the audit record for a correlated
request/response pair.  `durationMs` is the millisecond duration and
`startTimestamp` the RFC 3339 rendering of the request start time, both
computed by the caller in the source. -/
def RecordRpcCompletion (resp : Response) (durationMs : Int)
    (targetAlias method : Option String) (requestParams : Option JsonValue)
    (startTimestamp : String) : AuditRecord :=
  let status := if resp.error.isSome then "failure" else "success"
  let errorDetails := resp.error
  let responsePreview := if resp.error.isSome then none else resp.result
  { id := ""
    mcpMethod := method
    toolName := extractToolName method requestParams
    durationMs := some durationMs
    status := status
    proxyVersion := none
    targetServerAlias := targetAlias
    requestPreview := requestParams
    responsePreview := responsePreview
    errorDetails := errorDetails
    timestamp := startTimestamp }

/-- Embedding of `observability.CreateAuditRecordForError`: synthesizes a
failure record for an early error.  `freshUuid` stands for `uuid.New().String()`
and `nowTimestamp` for the RFC 3339 rendering of `time.Now().UTC()`. -/
def CreateAuditRecordForError (errMsg : String) (targetAlias method correlationID : Option String)
    (freshUuid nowTimestamp : String) : AuditRecord :=
  let entryID :=
    match correlationID with
    | some c => if c ≠ "" then c else freshUuid
    | none => freshUuid
  { id := entryID
    mcpMethod := method
    toolName := none
    durationMs := some 0
    status := "failure"
    proxyVersion := none
    targetServerAlias := targetAlias
    requestPreview := none
    responsePreview := none
    errorDetails := some (.obj [("error", .str errMsg),
                                ("message", .str "Failed during CLI operation")])
    timestamp := nowTimestamp }

/-- Embedding of the record-fixup portion of `observability.SendLog`: fill a
missing proxy version, a missing id and a missing timestamp, leaving values
that are already present unchanged.  `freshUuid` stands for
`uuid.New().String()`, `nowTimestamp` for `time.Now().UTC()` in RFC 3339 nano
format, and `proxyVersion` for the package global `ProxyVersion`. -/
def sendLogFill (r : AuditRecord) (freshUuid nowTimestamp proxyVersion : String) :
    AuditRecord :=
  let r1 := if r.proxyVersion.isNone then { r with proxyVersion := some proxyVersion } else r
  let r2 := if r1.id = "" then { r1 with id := freshUuid } else r1
  if r2.timestamp = "" then { r2 with timestamp := nowTimestamp } else r2

/-- Events observable from one proxy goroutine, in program order.  A `wrote`
event is a write of a byte sequence to the destination stream (child stdin for
the upstream goroutine, own stdout for the downstream goroutine); the other
events are the inspection side effects that follow the write in the source. -/
inductive ProxyEvent where
  | wrote : List Char → ProxyEvent
  | storedRequest : String → ProxyEvent
  | recordedCompletion : String → AuditRecord → ProxyEvent
  | droppedUnknownId : String → ProxyEvent
  | ignoredLine : ProxyEvent

/-- Embedding of one iteration of the stdin-proxy loop in `wrapper.Run`
(goroutine 1): write the scanned line plus a newline to the child stdin first,
then attempt to parse it as a JSON-RPC request and, when it parses and carries
a non-null id, store it in the request store.  `parseReq` stands for
`json.Unmarshal` into `jsonrpc.Request`; `now` is the start time taken before
the write. -/
def stdinStep (parseReq : List Char → Option Request) (now : Int)
    (st : ReqStore) (line : List Char) : ReqStore × List ProxyEvent :=
  let writeEv := ProxyEvent.wrote (line ++ ['\n'])
  match parseReq line with
  | some req =>
    match req.id with
    | some i => (st.Store i req.method now req.params,
                 [writeEv, .storedRequest (idToString i)])
    | none => (st, [writeEv, .ignoredLine])
  | none => (st, [writeEv, .ignoredLine])

/-- Embedding of the stdin-proxy loop over a whole sequence of scanned lines,
threading the request store and a logical clock. -/
def stdinTrace (parseReq : List Char → Option Request) (now : Int)
    (st : ReqStore) : List (List Char) → ReqStore × List ProxyEvent
  | [] => (st, [])
  | line :: rest =>
    let (st1, evs) := stdinStep parseReq now st line
    let (st2, evsRest) := stdinTrace parseReq (now + 1) st1 rest
    (st2, evs ++ evsRest)

/-- Embedding of one iteration of the stdout-proxy loop in `wrapper.Run`
(goroutine 2): write the scanned line plus a newline to own stdout first, then
attempt to parse it as a JSON-RPC response; when it parses with a non-null id,
retrieve the id from the request store — on a hit emit the completion record,
on a miss log and drop.  `parseResp` stands for `json.Unmarshal` into
`jsonrpc.Response`; `now` supplies the duration computation. -/
def stdoutStep (parseResp : List Char → Option Response) (now : Int)
    (targetAlias : Option String) (st : ReqStore) (line : List Char) :
    ReqStore × List ProxyEvent :=
  let writeEv := ProxyEvent.wrote (line ++ ['\n'])
  match parseResp line with
  | some resp =>
    match resp.id with
    | some i =>
      match st.Retrieve i with
      | (some info, st1) =>
        let record := RecordRpcCompletion resp (now - info.startTime) targetAlias
          (some info.method) info.params (toString info.startTime)
        (st1, [writeEv, .recordedCompletion (idToString i) record])
      | (none, st1) => (st1, [writeEv, .droppedUnknownId (idToString i)])
    | none => (st, [writeEv, .ignoredLine])
  | none => (st, [writeEv, .ignoredLine])

/-- Embedding of the stdout-proxy loop over a whole sequence of scanned
lines. -/
def stdoutTrace (parseResp : List Char → Option Response) (now : Int)
    (targetAlias : Option String) (st : ReqStore) :
    List (List Char) → ReqStore × List ProxyEvent
  | [] => (st, [])
  | line :: rest =>
    let (st1, evs) := stdoutStep parseResp now targetAlias st line
    let (st2, evsRest) := stdoutTrace parseResp (now + 1) targetAlias st1 rest
    (st2, evs ++ evsRest)

/-- The byte sequences written by a trace, in order. -/
def writesOf : List ProxyEvent → List (List Char)
  | [] => []
  | .wrote bs :: rest => bs :: writesOf rest
  | _ :: rest => writesOf rest

/-- Outcome of one HTTP POST attempt in `sendOrStoreBatch`: either the
transport fails (`client.Do` returns an error) or a response with some status
code arrives. -/
inductive HttpOutcome where
  | transportErr : HttpOutcome
  | status : Nat → HttpOutcome

/-- A 2xx status is a success; anything else (transport error included) causes
a retry, mirroring `resp.StatusCode >= 200 && resp.StatusCode < 300`. -/
def HttpOutcome.isSuccess : HttpOutcome → Bool
  | .status c => 200 ≤ c && c < 300
  | .transportErr => false

/-- One observed HTTP attempt: the seconds slept before it (`time.Sleep` of
`baseDelay * 2^(attempt-1)` for attempt > 0, nothing before attempt 0) and its
outcome. -/
structure AttemptEvent where
  delayBefore : Nat
  outcome : HttpOutcome

/-- Final fate of the remote delivery loop: the batch was delivered by some
2xx response, or all attempts were used up and the batch is dropped. -/
inductive RemoteResult where
  | delivered : RemoteResult
  | dropped : RemoteResult
deriving DecidableEq

/-- Embedding of the retry loop of `sendOrStoreBatch`
(`for attempt := 0; attempt <= maxRetries; attempt++`): `remaining` counts the
loop iterations still allowed, `attempt` is the current index, and `outcomes`
gives the result of the HTTP attempt with each index. -/
def runAttempts (outcomes : Nat → HttpOutcome) :
    Nat → Nat → List AttemptEvent × RemoteResult
  | _, 0 => ([], .dropped)
  | attempt, remaining + 1 =>
    let delay := if attempt = 0 then 0 else 2 ^ (attempt - 1)
    let o := outcomes attempt
    if o.isSuccess then ([⟨delay, o⟩], .delivered)
    else
      let (evs, r) := runAttempts outcomes (attempt + 1) remaining
      (⟨delay, o⟩ :: evs, r)

/-- The constant `maxRetries = 3` of `sendOrStoreBatch`. -/
def maxRetries : Nat := 3

/-- The authenticated delivery path of `sendOrStoreBatch`: up to
`maxRetries + 1` HTTP attempts starting at attempt 0. -/
def sendBatchRemote (outcomes : Nat → HttpOutcome) :
    List AttemptEvent × RemoteResult :=
  runAttempts outcomes 0 (maxRetries + 1)

/-- Fate of one flushed batch as decided by `sendOrStoreBatch`: nothing for an
empty batch, local persistence when unauthenticated, otherwise the remote
delivery loop. -/
inductive BatchFate where
  | noBatch : BatchFate
  | storedLocally : List AuditRecord → BatchFate
  | remote : List AttemptEvent → RemoteResult → BatchFate

/-- Embedding of `observability.sendOrStoreBatch`: return early on an empty
batch; read the token provider (`auth.GetToken`) — on an error or an empty
token save the batch to the local store, otherwise run the remote HTTP loop
with bearer auth.  `tokenResult` is the token-provider read performed inside
this function, i.e. at dispatch time; `outcomes` models the network. -/
def sendOrStoreBatch (batch : List AuditRecord)
    (tokenResult : Except String String) (outcomes : Nat → HttpOutcome) :
    BatchFate :=
  if batch.isEmpty then .noBatch
  else
    match tokenResult with
    | .error _ => .storedLocally batch
    | .ok token =>
      if token = "" then .storedLocally batch
      else
        let (evs, r) := sendBatchRemote outcomes
        .remote evs r

/-- Embedding of `flushBufferLocked`: snapshot the buffer and dispatch it via
`sendOrStoreBatch`, leaving an empty buffer behind.  The token is read only
here (inside the dispatch), not when records were appended to the buffer. -/
def flushBufferLocked (buffer : List AuditRecord)
    (tokenAtFlush : Except String String) (outcomes : Nat → HttpOutcome) :
    BatchFate × List AuditRecord :=
  if buffer.isEmpty then (.noBatch, buffer)
  else (sendOrStoreBatch buffer tokenAtFlush outcomes, [])

/-- Embedding of the enqueue path (`SendLog` then the `logSender` buffering
loop) followed by one flush: each submitted record is fixed up by
`sendLogFill` and appended to the buffer; no token is consulted until the
flush dispatches the batch. -/
def pipelineRun (submitted : List (AuditRecord × String × String))
    (proxyVersion : String) (tokenAtFlush : Except String String)
    (outcomes : Nat → HttpOutcome) : BatchFate × List AuditRecord :=
  let buffer := submitted.map (fun rup => sendLogFill rup.1 rup.2.1 rup.2.2 proxyVersion)
  flushBufferLocked buffer tokenAtFlush outcomes

/-- Rendering of a JSON string body with the two escapes every JSON encoder
must emit (backslash and double quote); this models the output of
`encoding/json.Marshal` for the payload columns.  Control-character and HTML
escaping are abstracted away: no verified claim depends on the rendered
text. -/
def escapeJsonChar (c : Char) : List Char :=
  if c = '\\' then ['\\', '\\']
  else if c = '"' then ['\\', '"']
  else [c]

mutual

/-- Rendering of a `JsonValue` as JSON text, modelling `encoding/json.Marshal`
applied to an unmarshalled value. -/
def JsonValue.serialize : JsonValue → String
  | .null => "null"
  | .bool true => "true"
  | .bool false => "false"
  | .num n => toString n
  | .str s => "\"" ++ String.mk (s.toList.flatMap escapeJsonChar) ++ "\""
  | .arr xs => "[" ++ serializeList xs ++ "]"
  | .obj kvs => "\x7b" ++ serializeObj kvs ++ "\x7d"

/-- Comma-joined rendering of array elements. -/
def JsonValue.serializeList : List JsonValue → String
  | [] => ""
  | [x] => x.serialize
  | x :: rest => x.serialize ++ "," ++ serializeList rest

/-- Comma-joined rendering of object members. -/
def JsonValue.serializeObj : List (String × JsonValue) → String
  | [] => ""
  | [(k, v)] => "\"" ++ k ++ "\":" ++ v.serialize
  | (k, v) :: rest => "\"" ++ k ++ "\":" ++ v.serialize ++ "," ++ serializeObj rest

end

/-- Serialization of a Go interface field for a payload column: a nil
interface marshals to the literal text `null`, matching both
`json.Marshal(nil)` and the defensive `reqPreviewBytes = []byte("null")`
fallback in `SaveBatch`. -/
def serializePreview : Option JsonValue → String
  | none => "null"
  | some v => v.serialize

/-- One row of the `logs` table as bound by `SaveBatch`: nullable columns are
`Option` (the `sql.NullString` / `sql.NullInt64` binds), payload columns are
the serialized JSON text. -/
structure StoredRow where
  id : String
  timestamp : String
  mcpMethod : Option String
  toolName : Option String
  durationMs : Option Int
  status : String
  proxyVersion : Option String
  targetServerAlias : Option String
  requestPreview : String
  responsePreview : String
  errorDetails : String
deriving DecidableEq

/-- Embedding of the per-record bind logic in the `SaveBatch` loop: serialize
the three JSON payloads (falling back to the text `null`, never failing the
row) and wrap the nullable scalar columns. -/
def rowOfRecord (r : AuditRecord) : StoredRow :=
  { id := r.id
    timestamp := r.timestamp
    mcpMethod := r.mcpMethod
    toolName := r.toolName
    durationMs := r.durationMs
    status := r.status
    proxyVersion := r.proxyVersion
    targetServerAlias := r.targetServerAlias
    requestPreview := serializePreview r.requestPreview
    responsePreview := serializePreview r.responsePreview
    errorDetails := serializePreview r.errorDetails }

/-- The database handle: `none` models a nil `localstore.DB` (before a
successful `InitDB`, or after `Clear` resets the handle); `some rows` models
an open database whose `logs` table holds `rows`. -/
def DbState : Type := Option (List StoredRow)

/-- Embedding of the insert loop inside `SaveBatch`: execute the prepared
insert for each record in order against the transaction; the first failing
`stmt.Exec` aborts with its error.  `execErr` is the oracle for the driver
error (if any) that executing the insert for a given record produces. -/
def saveBatchLoop (execErr : AuditRecord → Option String) :
    List AuditRecord → List StoredRow → Except String (List StoredRow)
  | [], txRows => .ok txRows
  | r :: rest, txRows =>
    match execErr r with
    | some e => .error ("localstore: failed to execute statement for record " ++
        r.id ++ ": " ++ e)
    | none => saveBatchLoop execErr rest (txRows ++ [rowOfRecord r])

/-- Embedding of `localstore.SaveBatch`: guard the nil handle; begin a
transaction with a deferred rollback; prepare the insert; run the loop; commit.
Returns the error result together with the database state after the call — on
any error the deferred rollback leaves the original rows, on success the
commit installs all inserted rows.  `beginErr`, `prepErr` and `commitErr` are
oracles for `DB.Begin`, `tx.Prepare` and `tx.Commit` failures. -/
def SaveBatch (db : DbState) (records : List AuditRecord)
    (beginErr prepErr commitErr : Option String)
    (execErr : AuditRecord → Option String) : Except String Unit × DbState :=
  match db with
  | none => (.error "localstore: database not initialized, call InitDB first", none)
  | some rows =>
    match beginErr with
    | some e => (.error ("localstore: failed to begin transaction: " ++ e), some rows)
    | none =>
      match prepErr with
      | some e => (.error ("localstore: failed to prepare statement: " ++ e), some rows)
      | none =>
        match saveBatchLoop execErr records rows with
        | .error e => (.error e, some rows)
        | .ok newRows =>
          match commitErr with
          | some e => (.error ("localstore: failed to commit transaction: " ++ e), some rows)
          | none => (.ok (), some newRows)

/-- Embedding of `localstore.LogQueryFilters`: the zero value of each field is
the empty string, which is also what the HTTP handler passes when the query
parameter is missing. -/
structure LogQueryFilters where
  status : String
  toolName : String
  mcpMethod : String
  searchTerm : String

/-- ASCII-case-insensitive containment test modelling the SQLite expression
`column LIKE ?` with pattern `%term%` (SQLite LIKE is case-insensitive on
ASCII).  Wildcard characters inside the term are abstracted away: no verified
claim passes a term containing them. -/
def likeContains (term text : String) : Bool :=
  hasRun (term.toList.map Char.toLower) (text.toList.map Char.toLower)
where
  /-- does the first list occur at the start of the second -/
  startsAt : List Char → List Char → Bool
    | [], _ => true
    | _ :: _, [] => false
    | p :: ps, c :: cs => p = c && startsAt ps cs
  /-- does the first list occur contiguously anywhere in the second -/
  hasRun : List Char → List Char → Bool
    | pat, [] => pat.isEmpty
    | pat, c :: rest => startsAt pat (c :: rest) || hasRun pat rest

/-- Embedding of the WHERE clause built by `QueryLogs`: each filter whose
value is a non-empty string contributes one AND-ed condition; equality
conditions on a nullable column only hold on non-NULL values (SQL three-valued
logic: `NULL = x` is not true). -/
def rowMatchesFilters (f : LogQueryFilters) (row : StoredRow) : Bool :=
  (f.status = "" || row.status = f.status) &&
  (f.toolName = "" || row.toolName = some f.toolName) &&
  (f.mcpMethod = "" || row.mcpMethod = some f.mcpMethod) &&
  (f.searchTerm = "" ||
    (likeContains f.searchTerm row.id ||
     likeContains f.searchTerm row.requestPreview ||
     likeContains f.searchTerm row.responsePreview ||
     likeContains f.searchTerm row.errorDetails))

/-- Stable insertion of a row into a list sorted by `timestamp DESC`,
modelling the ORDER BY of `QueryLogs` (SQLite compares TEXT bytewise, which on
UTF-8 agrees with the codepoint order used here). -/
def insertByTsDesc (r : StoredRow) : List StoredRow → List StoredRow
  | [] => [r]
  | x :: xs => if r.timestamp ≤ x.timestamp then x :: insertByTsDesc r xs
               else r :: x :: xs

/-- Sort rows by `timestamp DESC` via stable insertion. -/
def sortByTsDesc (rows : List StoredRow) : List StoredRow :=
  rows.foldr insertByTsDesc []

/-- Result shape of `QueryLogs` (`QueryLogsResult`), with rows in place of the
re-deserialized records. -/
structure QueryLogsResult where
  logs : List StoredRow
  totalCount : Nat
  page : Int
  limit : Int
deriving DecidableEq

/-- Embedding of `localstore.QueryLogs`: guard the nil handle; clamp `page` to
at least 1 and `limit` to the default 20 when non-positive; filter with the
AND-ed WHERE clause; order by `timestamp DESC`; paginate with
`LIMIT ? OFFSET ?`; the total count applies the filters without pagination. -/
def QueryLogs (db : DbState) (f : LogQueryFilters) (page limit : Int) :
    Except String QueryLogsResult :=
  match db with
  | none => .error "localstore: database not initialized"
  | some rows =>
    let page := if page < 1 then 1 else page
    let limit := if limit ≤ 0 then 20 else limit
    let offset := (page - 1) * limit
    let filtered := rows.filter (rowMatchesFilters f)
    let ordered := sortByTsDesc filtered
    let pageRows := (ordered.drop offset.toNat).take limit.toNat
    .ok { logs := pageRows, totalCount := filtered.length, page := page, limit := limit }

/-- Embedding of `localstore.GetLogByID`: guard the nil handle; return the row
with the given primary key, or the distinguished not-found outcome (`none`,
mirroring the nil record / nil error return on `sql.ErrNoRows`). -/
def GetLogByID (db : DbState) (id : String) : Except String (Option StoredRow) :=
  match db with
  | none => .error "localstore: database not initialized"
  | some rows => .ok (rows.find? (fun row => row.id = id))

/-- Specification-side filters for the comparison in claim C10: each filter is
either absent or a (possibly empty) value, following the wording that an
omitted filter contributes no condition. -/
structure LogQueryFiltersOpt where
  status : Option String
  toolName : Option String
  mcpMethod : Option String
  searchTerm : Option String

/-- Specification-side WHERE clause over optional filters: an absent filter
contributes no condition. -/
def rowMatchesFiltersOpt (f : LogQueryFiltersOpt) (row : StoredRow) : Bool :=
  (match f.status with | none => true | some s => row.status = s) &&
  (match f.toolName with | none => true | some s => row.toolName = some s) &&
  (match f.mcpMethod with | none => true | some s => row.mcpMethod = some s) &&
  (match f.searchTerm with
   | none => true
   | some s => likeContains s row.id || likeContains s row.requestPreview ||
       likeContains s row.responsePreview || likeContains s row.errorDetails)

/-- Specification-side query over optional filters, otherwise identical to
`QueryLogs`. -/
def QueryLogsOpt (db : DbState) (f : LogQueryFiltersOpt) (page limit : Int) :
    Except String QueryLogsResult :=
  match db with
  | none => .error "localstore: database not initialized"
  | some rows =>
    let page := if page < 1 then 1 else page
    let limit := if limit ≤ 0 then 20 else limit
    let offset := (page - 1) * limit
    let filtered := rows.filter (rowMatchesFiltersOpt f)
    let ordered := sortByTsDesc filtered
    let pageRows := (ordered.drop offset.toNat).take limit.toNat
    .ok { logs := pageRows, totalCount := filtered.length, page := page, limit := limit }

/-- Mapping a zero-value (empty string) filter field to an absent one — the
translation under which claim C10 compares the two query definitions. -/
def absentifyFilters (f : LogQueryFilters) : LogQueryFiltersOpt :=
  { status := if f.status = "" then none else some f.status
    toolName := if f.toolName = "" then none else some f.toolName
    mcpMethod := if f.mcpMethod = "" then none else some f.mcpMethod
    searchTerm := if f.searchTerm = "" then none else some f.searchTerm }

/-- The three recognized placeholder types of `placeholderRegex`
(the alternation `env|keyring|file`). -/
inductive PlaceholderType where
  | env : PlaceholderType
  | keyring : PlaceholderType
  | file : PlaceholderType
deriving DecidableEq

/-- Whitespace class of the RE2 escape `\s`, namely space, tab, newline,
form feed and carriage return. -/
def isSpaceChar (c : Char) : Bool :=
  c = ' ' || c = '\t' || c = '\n' || c = '\x0c' || c = '\r'

/-- Greedy consumption of `\s*`. -/
def dropSpaces : List Char → List Char
  | [] => []
  | c :: cs => if isSpaceChar c then dropSpaces cs else c :: cs

/-- Model of `strings.TrimSpace`: drop leading and trailing whitespace. -/
def trimChars (s : List Char) : List Char :=
  (dropSpaces (dropSpaces s).reverse).reverse

/-- Consume an exact literal from the head of the input, returning the rest on
success. -/
def stripLit : List Char → List Char → Option (List Char)
  | [], s => some s
  | _ :: _, [] => none
  | l :: ls, c :: cs => if l = c then stripLit ls cs else none

/-- The keyword alternation `(env|keyring|file)` of `placeholderRegex`.  The
three literals start with distinct characters, so at most one alternative can
consume the input and the leftmost-first alternation is unambiguous. -/
def matchTypeKw (s : List Char) : Option (PlaceholderType × List Char) :=
  match stripLit ['e', 'n', 'v'] s with
  | some r => some (.env, r)
  | none =>
    match stripLit ['k', 'e', 'y', 'r', 'i', 'n', 'g'] s with
    | some r => some (.keyring, r)
    | none =>
      match stripLit ['f', 'i', 'l', 'e'] s with
      | some r => some (.file, r)
      | none => none

/-- Anchored match of `placeholderRegex` at the head of the input:
two open braces, then optional whitespace, one of the three type keywords,
optional whitespace, a colon, then the value part followed by two close
braces.  For the value, the regex fragment is optional whitespace, one or more
non-close-brace characters (the capture), optional whitespace, two close
braces; since whitespace characters are themselves non-close-brace characters,
that fragment matches exactly when the maximal run `u` of non-close-brace
characters after the colon is non-empty and is followed immediately by two
close braces, and the captured group always trims to `trimChars u` — the same
trimming `resolveValue` applies via `strings.TrimSpace`.  Returns the
placeholder type, the trimmed value, and the input remaining after the
match. -/
def matchAt : List Char → Option (PlaceholderType × String × List Char)
  | '{' :: '{' :: s0 =>
    let s1 := dropSpaces s0
    match matchTypeKw s1 with
    | none => none
    | some (ty, s2) =>
      let s3 := dropSpaces s2
      match s3 with
      | ':' :: s4 =>
        let u := s4.takeWhile (fun c => c ≠ '}')
        let s5 := s4.dropWhile (fun c => c ≠ '}')
        if u.isEmpty then none
        else
          match s5 with
          | '}' :: '}' :: rest => some (ty, String.mk (trimChars u), rest)
          | _ => none
      | _ => none
  | _ => none

/-- The effectful lookups performed by `resolveValue`, as oracles:
`os.LookupEnv`, `keyring.Get` and `os.ReadFile`. -/
structure ResolveOracles where
  lookupEnv : String → Option String
  keyringGet : String → String → Except String String
  readFile : String → Except String String

/-- Model of `strings.SplitN(v, ":", 2)` restricted to what the keyring branch
needs: split at the first colon, or report that no colon exists (the
`len(krParts) != 2` case). -/
def splitOnColon : List Char → Option (List Char × List Char)
  | [] => none
  | c :: cs =>
    if c = ':' then some ([], cs)
    else
      match splitOnColon cs with
      | some (a, b) => some (c :: a, b)
      | none => none

/-- Embedding of the replacement callback inside `resolveValue`: when an error
was already recorded for this value, return the matched text unchanged;
otherwise resolve the placeholder by its type, returning the replacement text,
or the matched text together with the first resolution error. -/
def applyPlaceholder (o : ResolveOracles) (ty : PlaceholderType) (v : String)
    (matched : List Char) (errState : Option String) :
    List Char × Option String :=
  if errState.isSome then (matched, errState)
  else
    match ty with
    | .env =>
      match o.lookupEnv v with
      | some val => (val.toList, errState)
      | none => (matched, some ("environment variable " ++ v ++ " not found"))
    | .keyring =>
      match splitOnColon v.toList with
      | none => (matched, some ("invalid keyring format " ++ v ++
          ", expected service:account"))
      | some (svc, acct) =>
        match o.keyringGet (String.mk svc) (String.mk acct) with
        | .ok secret => (secret.toList, errState)
        | .error e => (matched, some ("keyring error for " ++ v ++ ": " ++ e))
    | .file =>
      match o.readFile v with
      | .ok content => (trimChars content.toList, errState)
      | .error e => (matched, some ("failed to read file " ++ v ++ ": " ++ e))

/-- Embedding of `ReplaceAllStringFunc(placeholderRegex, ...)` as used by
`resolveValue`: scan left to right; at each position, a match of the pattern is
replaced through the callback and scanning resumes after it, while a
non-matching head character is copied.  `fuel` bounds the recursion; every
step consumes at least one character, so fuel equal to the input length is
always sufficient. -/
def resolveCharsFuel (o : ResolveOracles) :
    Nat → Option String → List Char → List Char × Option String
  | 0, err, s => (s, err)
  | _ + 1, err, [] => ([], err)
  | fuel + 1, err, c :: rest =>
    match matchAt (c :: rest) with
    | some (ty, v, after) =>
      let consumed := (c :: rest).take ((c :: rest).length - after.length)
      let (rep, err1) := applyPlaceholder o ty v consumed err
      let (tailOut, err2) := resolveCharsFuel o fuel err1 after
      (rep ++ tailOut, err2)
    | none =>
      let (tailOut, err2) := resolveCharsFuel o fuel err rest
      (c :: tailOut, err2)

/-- Embedding of `placeholder.resolveValue`: process a single environment
value, returning the (possibly partially) substituted string together with the
first resolution error encountered in it, if any. -/
def resolveValue (o : ResolveOracles) (value : String) : String × Option String :=
  let (cs, err) := resolveCharsFuel o value.toList.length none value.toList
  (String.mk cs, err)

/-- Auxiliary: retrieval from a store holding exactly one entry succeeds for
precisely the ids with the same canonical key string. -/
theorem retrieve_after_store (id1 id2 : JsonRpcId) (m : String) (t : Int)
    (p : Option JsonValue) :
    ((ReqStore.empty.Store id1 m t p).Retrieve id2).1.isSome = true ↔
      idToString id2 = idToString id1 := by
  unfold ReqStore.Retrieve ReqStore.Store ReqStore.empty
  by_cases h : idToString id2 = idToString id1 <;> simp [h]

/-- C1 counterexample: the claim says a request with numeric id 1 is NOT
matched by a response with string id "1".  In the code both canonicalize to
the key "1", so the store entry created for the numeric id is found — and
removed — by the string id: string and numeric ids do collide. -/
theorem C1_counterexample :
    idToString (.num 1) = idToString (.str "1") ∧
    ((ReqStore.empty.Store (.num 1) "initialize" 0 none).Retrieve
      (.str "1")).1.isSome = true := by
  constructor
  · rfl
  · exact (retrieve_after_store (.num 1) (.str "1") "initialize" 0 none).mpr rfl

/-- C1 (amended): the request store and the correlator key string ids verbatim
and integer-valued numeric ids as their decimal string without a decimal
point, so a request with id 1 is matched by a response with id 1.0 (both
unmarshal to the same float64 and canonicalize to "1"); a stored request is
retrieved by exactly the ids with the same canonical string — in particular a
string id whose text equals the decimal rendering of a numeric id collides
with it. -/
theorem C1_canonicalization :
    (∀ s : String, idToString (.str s) = s) ∧
    (∀ n : Int, idToString (.num n) = toString n) ∧
    (∀ (id1 id2 : JsonRpcId) (m : String) (t : Int) (p : Option JsonValue),
      ((ReqStore.empty.Store id1 m t p).Retrieve id2).1.isSome = true ↔
        idToString id2 = idToString id1) :=
  ⟨fun _ => rfl, fun _ => rfl, retrieve_after_store⟩

/-- C3 counterexample: a correlated response carrying neither an error member
nor a result (a success response whose result is JSON null) produces a record
with status success in which NEITHER response_preview NOR error_details is
populated, refuting that exactly one of the two is populated and that
response_preview is populated whenever the status is success. -/
theorem C3_counterexample :
    (RecordRpcCompletion ⟨some (.num 7), none, none⟩ 12 none (some "ping")
      none "2024-01-01T00:00:00Z").status = "success" ∧
    (RecordRpcCompletion ⟨some (.num 7), none, none⟩ 12 none (some "ping")
      none "2024-01-01T00:00:00Z").responsePreview = none ∧
    (RecordRpcCompletion ⟨some (.num 7), none, none⟩ 12 none (some "ping")
      none "2024-01-01T00:00:00Z").errorDetails = none :=
  ⟨rfl, rfl, rfl⟩

/-- C3 (amended): for every record produced from a correlated pair, status is
failure iff the response carried a JSON-RPC error object (and every
synthesized early-error record has status failure); error_details is populated
iff the status is failure; at most one of response_preview and error_details
is populated; on success response_preview equals the response result — so it
is populated iff that result was non-null. -/
theorem C3_status_previews :
    (∀ (resp : Response) (d : Int) (a m : Option String) (p : Option JsonValue)
      (ts : String),
      ((RecordRpcCompletion resp d a m p ts).status = "failure" ↔ resp.error.isSome) ∧
      (RecordRpcCompletion resp d a m p ts).errorDetails = resp.error ∧
      ((RecordRpcCompletion resp d a m p ts).errorDetails.isSome ↔
        (RecordRpcCompletion resp d a m p ts).status = "failure") ∧
      ¬((RecordRpcCompletion resp d a m p ts).responsePreview.isSome ∧
        (RecordRpcCompletion resp d a m p ts).errorDetails.isSome) ∧
      ((RecordRpcCompletion resp d a m p ts).status = "success" →
        (RecordRpcCompletion resp d a m p ts).responsePreview = resp.result) ∧
      ((RecordRpcCompletion resp d a m p ts).responsePreview.isSome →
        (RecordRpcCompletion resp d a m p ts).status = "success")) ∧
    (∀ (msg : String) (a m c : Option String) (fu nt : String),
      (CreateAuditRecordForError msg a m c fu nt).status = "failure" ∧
      (CreateAuditRecordForError msg a m c fu nt).errorDetails.isSome = true ∧
      (CreateAuditRecordForError msg a m c fu nt).responsePreview = none) := by
  constructor
  · intro resp d a m p ts
    cases h : resp.error <;>
      simp [RecordRpcCompletion, h]
  · intro msg a m c fu nt
    exact ⟨rfl, rfl, rfl⟩

/-- C3 witness: the amended statement applied to a concrete failing response
and a concrete successful response with a non-null result. -/
theorem C3_status_previews_witness :
    ((RecordRpcCompletion ⟨some (.str "a"), none,
      some (.obj [("code", .num (-32601))])⟩ 5 none (some "x") none
      "t").status = "failure" ↔
        (some (JsonValue.obj [("code", .num (-32601))]) : Option JsonValue).isSome) ∧
    (CreateAuditRecordForError "boom" none none none "u1" "t1").status = "failure" := by
  constructor
  · exact ((C3_status_previews.1 ⟨some (.str "a"), none,
      some (.obj [("code", .num (-32601))])⟩ 5 none (some "x") none "t").1)
  · exact (C3_status_previews.2 "boom" none none none "u1" "t1").1

/-- C9: while the database handle is nil (before a successful InitDB, or after
Clear resets it) SaveBatch, QueryLogs and GetLogByID all return the database
not initialized error instead of proceeding, and the store state is left
unchanged (still uninitialized). -/
theorem C9_nil_db_guard :
    ∀ (records : List AuditRecord) (be pe ce : Option String)
      (ee : AuditRecord → Option String) (f : LogQueryFilters)
      (page limit : Int) (id : String),
      SaveBatch none records be pe ce ee =
        (.error "localstore: database not initialized, call InitDB first", none) ∧
      QueryLogs none f page limit = .error "localstore: database not initialized" ∧
      GetLogByID none id = .error "localstore: database not initialized" :=
  fun _ _ _ _ _ _ _ _ _ => ⟨rfl, rfl, rfl⟩

/-- Auxiliary: the compiled WHERE clause agrees with the specification-side
clause over optional filters under the zero-value-means-absent translation. -/
theorem rowMatches_absentify (f : LogQueryFilters) (row : StoredRow) :
    rowMatchesFilters f row = rowMatchesFiltersOpt (absentifyFilters f) row := by
  unfold rowMatchesFilters rowMatchesFiltersOpt absentifyFilters
  by_cases h1 : f.status = "" <;> by_cases h2 : f.toolName = "" <;>
    by_cases h3 : f.mcpMethod = "" <;> by_cases h4 : f.searchTerm = "" <;>
    simp [h1, h2, h3, h4]

/-- C10: a filter whose value is the empty string contributes no WHERE
condition, so QueryLogs with any subset of Status, ToolName, McpMethod or
SearchTerm equal to the empty string returns exactly the result of the query
with those filters absent — records cannot be selected by an empty field
value. -/
theorem C10_empty_filters_absent :
    ∀ (db : DbState) (f : LogQueryFilters) (page limit : Int),
      QueryLogs db f page limit = QueryLogsOpt db (absentifyFilters f) page limit := by
  intro db f page limit
  cases db with
  | none => rfl
  | some rows =>
    unfold QueryLogs QueryLogsOpt
    have h : rows.filter (rowMatchesFilters f) =
        rows.filter (rowMatchesFiltersOpt (absentifyFilters f)) :=
      List.filter_congr (fun row _ => rowMatches_absentify f row)
    simp only [h]

/-- Auxiliary: `writesOf` distributes over trace concatenation. -/
theorem writesOf_append (a b : List ProxyEvent) :
    writesOf (a ++ b) = writesOf a ++ writesOf b := by
  induction a with
  | nil => rfl
  | cons e rest ih => cases e <;> simp [writesOf, ih]

/-- Auxiliary: one stdin-proxy iteration performs exactly one write, the
scanned line plus a newline, and that write is the first event of the
iteration. -/
theorem stdinStep_write (parseReq : List Char → Option Request) (now : Int)
    (st : ReqStore) (line : List Char) :
    writesOf (stdinStep parseReq now st line).2 = [line ++ ['\n']] ∧
    ((stdinStep parseReq now st line).2).head? =
      some (.wrote (line ++ ['\n'])) := by
  unfold stdinStep
  cases hp : parseReq line with
  | none => simp [hp, writesOf]
  | some req => cases hid : req.id <;> simp [hp, hid, writesOf]

/-- Auxiliary: one stdout-proxy iteration performs exactly one write, the
scanned line plus a newline, and that write is the first event of the
iteration. -/
theorem stdoutStep_write (parseResp : List Char → Option Response) (now : Int)
    (targetAlias : Option String) (st : ReqStore) (line : List Char) :
    writesOf (stdoutStep parseResp now targetAlias st line).2 = [line ++ ['\n']] ∧
    ((stdoutStep parseResp now targetAlias st line).2).head? =
      some (.wrote (line ++ ['\n'])) := by
  unfold stdoutStep
  cases hp : parseResp line with
  | none => simp [hp, writesOf]
  | some resp =>
    cases hid : resp.id with
    | none => simp [hp, hid, writesOf]
    | some i =>
      rcases h : st.Retrieve i with ⟨found, st1⟩
      cases found <;> simp [hp, hid, h, writesOf]

/-- Auxiliary: the stdin-proxy trace writes every scanned line plus a newline,
in scan order. -/
theorem stdinTrace_writes (parseReq : List Char → Option Request) :
    ∀ (lines : List (List Char)) (now : Int) (st : ReqStore),
      writesOf (stdinTrace parseReq now st lines).2 =
        lines.map (fun l => l ++ ['\n']) := by
  intro lines
  induction lines with
  | nil => intro now st; rfl
  | cons line rest ih =>
    intro now st
    unfold stdinTrace
    rcases hs : stdinStep parseReq now st line with ⟨st1, evs⟩
    rcases ht : stdinTrace parseReq (now + 1) st1 rest with ⟨st2, evsRest⟩
    have h1 : writesOf evs = [line ++ ['\n']] := by
      have := (stdinStep_write parseReq now st line).1
      rwa [hs] at this
    have h2 : writesOf evsRest = rest.map (fun l => l ++ ['\n']) := by
      have := ih (now + 1) st1
      rwa [ht] at this
    simp [hs, ht, writesOf_append, h1, h2]

/-- Auxiliary: the stdout-proxy trace writes every scanned line plus a
newline, in scan order. -/
theorem stdoutTrace_writes (parseResp : List Char → Option Response)
    (targetAlias : Option String) :
    ∀ (lines : List (List Char)) (now : Int) (st : ReqStore),
      writesOf (stdoutTrace parseResp now targetAlias st lines).2 =
        lines.map (fun l => l ++ ['\n']) := by
  intro lines
  induction lines with
  | nil => intro now st; rfl
  | cons line rest ih =>
    intro now st
    unfold stdoutTrace
    rcases hs : stdoutStep parseResp now targetAlias st line with ⟨st1, evs⟩
    rcases ht : stdoutTrace parseResp (now + 1) targetAlias st1 rest with ⟨st2, evsRest⟩
    have h1 : writesOf evs = [line ++ ['\n']] := by
      have := (stdoutStep_write parseResp now targetAlias st line).1
      rwa [hs] at this
    have h2 : writesOf evsRest = rest.map (fun l => l ++ ['\n']) := by
      have := ih (now + 1) st1
      rwa [ht] at this
    simp [hs, ht, writesOf_append, h1, h2]

/-- C2: on both proxied streams every scanned line is written to the
destination stream as the identical byte sequence plus a trailing newline, in
scan order, whatever the JSON-RPC parse outcome (the parse functions are
universally quantified); and within each iteration the write is the first
event, before any parsing or inspection side effect. -/
theorem C2_forward_before_inspect :
    ∀ (parseReq : List Char → Option Request)
      (parseResp : List Char → Option Response) (now : Int)
      (targetAlias : Option String) (st su : ReqStore)
      (lines : List (List Char)) (line : List Char),
      writesOf (stdinTrace parseReq now st lines).2 =
        lines.map (fun l => l ++ ['\n']) ∧
      writesOf (stdoutTrace parseResp now targetAlias su lines).2 =
        lines.map (fun l => l ++ ['\n']) ∧
      ((stdinStep parseReq now st line).2).head? =
        some (.wrote (line ++ ['\n'])) ∧
      ((stdoutStep parseResp now targetAlias su line).2).head? =
        some (.wrote (line ++ ['\n'])) :=
  fun parseReq parseResp now targetAlias st su lines line =>
    ⟨stdinTrace_writes parseReq lines now st,
     stdoutTrace_writes parseResp targetAlias lines now su,
     (stdinStep_write parseReq now st line).2,
     (stdoutStep_write parseResp now targetAlias su line).2⟩

/-- Auxiliary: with a non-empty batch and a non-empty token the dispatcher
takes the remote path. -/
theorem sendOrStore_authenticated (batch : List AuditRecord) (t : String)
    (outcomes : Nat → HttpOutcome) (hb : batch ≠ []) (ht : t ≠ "") :
    sendOrStoreBatch batch (Except.ok t) outcomes =
      .remote (sendBatchRemote outcomes).1 (sendBatchRemote outcomes).2 := by
  cases batch with
  | nil => exact absurd rfl hb
  | cons a l => simp [sendOrStoreBatch, ht]

/-- C4: the pipeline fate of a flush is exactly `sendOrStoreBatch` of the
buffered (enqueue-fixed) records with the token read at dispatch time — the
enqueue path takes no token at all, so no destination is fixed at submission;
a non-empty batch is routed to the local store iff the token read errored or
returned the empty string, and to the remote endpoint otherwise. -/
theorem C4_dispatch_at_flush :
    (∀ (submitted : List (AuditRecord × String × String)) (ver : String)
      (tok : Except String String) (outcomes : Nat → HttpOutcome),
      (pipelineRun submitted ver tok outcomes).1 =
        sendOrStoreBatch
          (submitted.map (fun rup => sendLogFill rup.1 rup.2.1 rup.2.2 ver))
          tok outcomes) ∧
    (∀ (batch : List AuditRecord) (tok : Except String String)
      (outcomes : Nat → HttpOutcome), batch ≠ [] →
      (sendOrStoreBatch batch tok outcomes = .storedLocally batch ↔
        (∃ e, tok = Except.error e) ∨ tok = Except.ok "")) ∧
    (∀ (batch : List AuditRecord) (t : String) (outcomes : Nat → HttpOutcome),
      batch ≠ [] → t ≠ "" →
      sendOrStoreBatch batch (Except.ok t) outcomes =
        .remote (sendBatchRemote outcomes).1 (sendBatchRemote outcomes).2) := by
  refine ⟨?_, ?_, fun batch t outcomes hb ht =>
    sendOrStore_authenticated batch t outcomes hb ht⟩
  · intro submitted ver tok outcomes
    unfold pipelineRun flushBufferLocked
    by_cases h : (submitted.map
        (fun rup => sendLogFill rup.1 rup.2.1 rup.2.2 ver)).isEmpty <;>
      simp [h, sendOrStoreBatch]
  · intro batch tok outcomes hb
    cases batch with
    | nil => exact absurd rfl hb
    | cons a l =>
      cases tok with
      | error e => simp [sendOrStoreBatch]
      | ok t =>
        by_cases ht : t = "" <;> simp [sendOrStoreBatch, ht]

/-- A concrete outcome oracle: the endpoint answers status 500 on every
attempt. -/
def allServerError : Nat → HttpOutcome := fun _ => .status 500

/-- A concrete audit record used by witnesses. -/
def testRecord : AuditRecord :=
  { id := "rec-1", mcpMethod := some "tool/call", toolName := some "echo"
    durationMs := some 12, status := "success", proxyVersion := some "0.1.0-dev"
    targetServerAlias := none, requestPreview := some (.obj [("x", .num 1)])
    responsePreview := some (.obj [("ok", .bool true)]), errorDetails := none
    timestamp := "2024-01-01T00:00:00Z" }

/-- C4 witness: with a token-retrieval error the concrete one-record batch is
routed to the local store. -/
theorem C4_dispatch_at_flush_witness :
    sendOrStoreBatch [testRecord] (Except.error "no token") allServerError =
      .storedLocally [testRecord] :=
  (C4_dispatch_at_flush.2.1 [testRecord] (Except.error "no token") allServerError
    (by simp)).mpr (Or.inl ⟨"no token", rfl⟩)

/-- C5: remote delivery makes at most 4 HTTP attempts; the delays slept before
the attempts form one of the sequences 0; 0,1; 0,1,2; 0,1,2,4 (seconds), i.e.
1 s, 2 s, 4 s before the three possible retried attempts; the first 2xx
outcome stops the loop immediately with the batch delivered; if all four
attempts fail (transport error or non-2xx) the loop ends after exactly 4
attempts with the batch dropped; and an authenticated dispatch never routes
the batch to the local store. -/
theorem C5_retry_policy :
    ∀ (outcomes : Nat → HttpOutcome) (batch : List AuditRecord) (t : String),
      (sendBatchRemote outcomes).1.length ≤ 4 ∧
      (sendBatchRemote outcomes).1.map (fun e => e.delayBefore) ∈
        ([[0], [0, 1], [0, 1, 2], [0, 1, 2, 4]] : List (List Nat)) ∧
      ((outcomes 0).isSuccess = true →
        (sendBatchRemote outcomes).1.length = 1 ∧
        (sendBatchRemote outcomes).2 = RemoteResult.delivered) ∧
      ((outcomes 0).isSuccess = false → (outcomes 1).isSuccess = true →
        (sendBatchRemote outcomes).1.length = 2 ∧
        (sendBatchRemote outcomes).2 = RemoteResult.delivered) ∧
      ((outcomes 0).isSuccess = false → (outcomes 1).isSuccess = false →
        (outcomes 2).isSuccess = true →
        (sendBatchRemote outcomes).1.length = 3 ∧
        (sendBatchRemote outcomes).2 = RemoteResult.delivered) ∧
      ((outcomes 0).isSuccess = false → (outcomes 1).isSuccess = false →
        (outcomes 2).isSuccess = false → (outcomes 3).isSuccess = true →
        (sendBatchRemote outcomes).1.length = 4 ∧
        (sendBatchRemote outcomes).2 = RemoteResult.delivered) ∧
      ((outcomes 0).isSuccess = false → (outcomes 1).isSuccess = false →
        (outcomes 2).isSuccess = false → (outcomes 3).isSuccess = false →
        (sendBatchRemote outcomes).1.length = 4 ∧
        (sendBatchRemote outcomes).2 = RemoteResult.dropped) ∧
      (batch ≠ [] → t ≠ "" → ∀ (b : List AuditRecord),
        sendOrStoreBatch batch (Except.ok t) outcomes ≠ .storedLocally b) := by
  intro outcomes batch t
  have hlast : batch ≠ [] → t ≠ "" → ∀ (b : List AuditRecord),
      sendOrStoreBatch batch (Except.ok t) outcomes ≠ .storedLocally b := by
    intro hb ht b
    rw [sendOrStore_authenticated batch t outcomes hb ht]
    simp
  by_cases h0 : (outcomes 0).isSuccess <;> by_cases h1 : (outcomes 1).isSuccess <;>
    by_cases h2 : (outcomes 2).isSuccess <;> by_cases h3 : (outcomes 3).isSuccess <;>
    refine ⟨?_, ?_, ?_, ?_, ?_, ?_, ?_, hlast⟩ <;>
    simp [sendBatchRemote, maxRetries, runAttempts, h0, h1, h2, h3]

/-- C5 witness: with every attempt answered by status 500 the loop makes
exactly 4 attempts and drops the batch; an authenticated dispatch of the
concrete one-record batch is not stored locally. -/
theorem C5_retry_policy_witness :
    ((sendBatchRemote allServerError).1.length = 4 ∧
      (sendBatchRemote allServerError).2 = RemoteResult.dropped) ∧
    sendOrStoreBatch [testRecord] (Except.ok "tok") allServerError ≠
      .storedLocally [testRecord] := by
  constructor
  · exact (C5_retry_policy allServerError [testRecord] "tok").2.2.2.2.2.2.1
      rfl rfl rfl rfl
  · exact (C5_retry_policy allServerError [testRecord] "tok").2.2.2.2.2.2.2
      (by simp) (by simp) [testRecord]

/-- Auxiliary: when every insert succeeds, the loop appends exactly the rows
of the batch, in order. -/
theorem saveBatchLoop_ok (ee : AuditRecord → Option String) :
    ∀ (records : List AuditRecord) (acc : List StoredRow),
      (∀ r ∈ records, ee r = none) →
      saveBatchLoop ee records acc = .ok (acc ++ records.map rowOfRecord) := by
  intro records
  induction records with
  | nil => intro acc _; simp [saveBatchLoop]
  | cons r rest ih =>
    intro acc h
    have hr : ee r = none := h r (by simp)
    have hrest : ∀ x ∈ rest, ee x = none := fun x hx => h x (by simp [hx])
    simp [saveBatchLoop, hr, ih (acc ++ [rowOfRecord r]) hrest]

/-- Auxiliary: if some record of the batch has a failing insert, the loop
returns an error. -/
theorem saveBatchLoop_err (ee : AuditRecord → Option String) :
    ∀ (records : List AuditRecord) (acc : List StoredRow),
      (∃ r ∈ records, (ee r).isSome) →
      ∃ e, saveBatchLoop ee records acc = .error e := by
  intro records
  induction records with
  | nil => intro acc h; simp at h
  | cons r rest ih =>
    intro acc h
    cases hr : ee r with
    | some e => exact ⟨"localstore: failed to execute statement for record " ++
        r.id ++ ": " ++ e, by simp [saveBatchLoop, hr]⟩
    | none =>
      rcases h with ⟨x, hx, hxe⟩
      rcases List.mem_cons.mp hx with heq | hmem
      · rw [heq, hr] at hxe; simp at hxe
      · rcases ih (acc ++ [rowOfRecord r]) ⟨x, hmem, hxe⟩ with ⟨e, he⟩
        exact ⟨e, by simp [saveBatchLoop, hr, he]⟩

/-- Auxiliary: whatever the loop returns, a successful run yields exactly the
appended rows. -/
theorem saveBatchLoop_cases (ee : AuditRecord → Option String) :
    ∀ (records : List AuditRecord) (acc : List StoredRow),
      (saveBatchLoop ee records acc = .ok (acc ++ records.map rowOfRecord)) ∨
      (∃ e, saveBatchLoop ee records acc = .error e) := by
  intro records
  induction records with
  | nil => intro acc; left; simp [saveBatchLoop]
  | cons r rest ih =>
    intro acc
    cases hr : ee r with
    | some e =>
      right
      exact ⟨"localstore: failed to execute statement for record " ++
        r.id ++ ": " ++ e, by simp [saveBatchLoop, hr]⟩
    | none =>
      rcases ih (acc ++ [rowOfRecord r]) with h | ⟨e, he⟩
      · left; simp [saveBatchLoop, hr, h]
      · right; exact ⟨e, by simp [saveBatchLoop, hr, he]⟩

/-- C6: SaveBatch is atomic.  Against an initialized store, either the call
returns an error and the deferred rollback leaves the rows exactly as they
were, or the call succeeds and the store holds the old rows followed by every
row of the batch; a failing per-record insert always produces an error (hence
rollback), and when nothing fails the batch is fully persisted — a batch is
never partially stored. -/
theorem C6_savebatch_atomic :
    ∀ (rows : List StoredRow) (records : List AuditRecord)
      (be pe ce : Option String) (ee : AuditRecord → Option String),
      ((∃ e, (SaveBatch (some rows) records be pe ce ee).1 = .error e) →
        (SaveBatch (some rows) records be pe ce ee).2 = some rows) ∧
      ((SaveBatch (some rows) records be pe ce ee).1 = .ok () →
        (SaveBatch (some rows) records be pe ce ee).2 =
          some (rows ++ records.map rowOfRecord)) ∧
      ((∃ r ∈ records, (ee r).isSome) →
        ∃ e, (SaveBatch (some rows) records be pe ce ee).1 = .error e) ∧
      (be = none → pe = none → ce = none → (∀ r ∈ records, ee r = none) →
        SaveBatch (some rows) records be pe ce ee =
          (.ok (), some (rows ++ records.map rowOfRecord))) := by
  intro rows records be pe ce ee
  refine ⟨?_, ?_, ?_, ?_⟩
  · rintro ⟨e, he⟩
    unfold SaveBatch at *
    cases be with
    | some b => rfl
    | none =>
      cases pe with
      | some p => rfl
      | none =>
        rcases saveBatchLoop_cases ee records rows with h | ⟨e2, h⟩
        · simp [h] at he ⊢
          cases ce with
          | some c => simp
          | none => simp at he
        · simp [h]
  · intro hok
    unfold SaveBatch at *
    cases be with
    | some b => simp at hok
    | none =>
      cases pe with
      | some p => simp at hok
      | none =>
        rcases saveBatchLoop_cases ee records rows with h | ⟨e2, h⟩
        · simp [h] at hok ⊢
          cases ce with
          | some c => simp at hok
          | none => simp
        · simp [h] at hok
  · rintro hex
    rcases saveBatchLoop_err ee records rows hex with ⟨e, he⟩
    unfold SaveBatch
    cases be with
    | some b => exact ⟨_, rfl⟩
    | none =>
      cases pe with
      | some p => exact ⟨_, rfl⟩
      | none => exact ⟨e, by simp [he]⟩
  · intro hbe hpe hce hall
    subst hbe; subst hpe; subst hce
    unfold SaveBatch
    simp [saveBatchLoop_ok ee records rows hall]

/-- C6 witness: a concrete two-record batch against an empty store with no
driver failures is fully persisted; the same batch with a failing insert on
the second record leaves the store unchanged. -/
theorem C6_savebatch_atomic_witness :
    SaveBatch (some []) [testRecord] none none none (fun _ => none) =
      (.ok (), some [rowOfRecord testRecord]) ∧
    (∃ e, (SaveBatch (some []) [testRecord] none none none
      (fun _ => some "constraint failed")).1 = .error e) ∧
    (SaveBatch (some []) [testRecord] none none none
      (fun _ => some "constraint failed")).2 = some [] := by
  refine ⟨?_, ?_, ?_⟩
  · exact (C6_savebatch_atomic [] [testRecord] none none none (fun _ => none)).2.2.2
      rfl rfl rfl (fun r _ => rfl)
  · exact (C6_savebatch_atomic [] [testRecord] none none none
      (fun _ => some "constraint failed")).2.2.1 ⟨testRecord, by simp, rfl⟩
  · exact (C6_savebatch_atomic [] [testRecord] none none none
      (fun _ => some "constraint failed")).1
      ((C6_savebatch_atomic [] [testRecord] none none none
        (fun _ => some "constraint failed")).2.2.1 ⟨testRecord, by simp, rfl⟩)

/-- C8: enqueue (SendLog) fills any missing id with the fresh UUID, any
missing timestamp with the current UTC RFC 3339 time, and any missing proxy
version with the package version, leaving already-present values (and every
other field) unchanged; the enqueued record therefore always carries a
non-empty id and timestamp, and both record producers set a non-empty status
("success" or "failure"), which the fill preserves — so every record leaving
the sink has non-empty id, timestamp and status. -/
theorem C8_enqueue_fill :
    ∀ (r : AuditRecord) (freshUuid nowTs ver : String),
      freshUuid ≠ "" → nowTs ≠ "" →
      ((sendLogFill r freshUuid nowTs ver).id =
        (if r.id = "" then freshUuid else r.id)) ∧
      ((sendLogFill r freshUuid nowTs ver).timestamp =
        (if r.timestamp = "" then nowTs else r.timestamp)) ∧
      ((sendLogFill r freshUuid nowTs ver).proxyVersion =
        (if r.proxyVersion.isNone then some ver else r.proxyVersion)) ∧
      (sendLogFill r freshUuid nowTs ver).id ≠ "" ∧
      (sendLogFill r freshUuid nowTs ver).timestamp ≠ "" ∧
      (sendLogFill r freshUuid nowTs ver).proxyVersion.isSome = true ∧
      (sendLogFill r freshUuid nowTs ver).status = r.status ∧
      (sendLogFill r freshUuid nowTs ver).mcpMethod = r.mcpMethod ∧
      (sendLogFill r freshUuid nowTs ver).toolName = r.toolName ∧
      (sendLogFill r freshUuid nowTs ver).durationMs = r.durationMs ∧
      (sendLogFill r freshUuid nowTs ver).targetServerAlias = r.targetServerAlias ∧
      (sendLogFill r freshUuid nowTs ver).requestPreview = r.requestPreview ∧
      (sendLogFill r freshUuid nowTs ver).responsePreview = r.responsePreview ∧
      (sendLogFill r freshUuid nowTs ver).errorDetails = r.errorDetails ∧
      (∀ (resp : Response) (d : Int) (a m : Option String) (p : Option JsonValue)
        (ts : String), (RecordRpcCompletion resp d a m p ts).status ≠ "") ∧
      (∀ (msg : String) (a m c : Option String) (fu nt : String),
        (CreateAuditRecordForError msg a m c fu nt).status ≠ "") := by
  intro r freshUuid nowTs ver hfu hnt
  have hprod1 : ∀ (resp : Response) (d : Int) (a m : Option String)
      (p : Option JsonValue) (ts : String),
      (RecordRpcCompletion resp d a m p ts).status ≠ "" := by
    intro resp d a m p ts
    cases h : resp.error <;> simp [RecordRpcCompletion, h]
  have hprod2 : ∀ (msg : String) (a m c : Option String) (fu nt : String),
      (CreateAuditRecordForError msg a m c fu nt).status ≠ "" := by
    intro msg a m c fu nt
    simp [CreateAuditRecordForError]
  by_cases h1 : r.proxyVersion.isNone <;> by_cases h2 : r.id = "" <;>
    by_cases h3 : r.timestamp = "" <;>
    simp [sendLogFill, h1, h2, h3, hfu, hnt, hprod1, hprod2] <;>
    simp [Option.isNone_iff_eq_none] at h1 <;>
    simp [Option.isSome_iff_ne_none, h1]

/-- C8 witness: a concrete correlated-completion record (which is produced
with an empty id) is enqueued with a non-empty id, timestamp and status. -/
theorem C8_enqueue_fill_witness :
    (sendLogFill (RecordRpcCompletion ⟨some (.num 7),
        some (.obj [("ok", .bool true)]), none⟩ 12 none (some "tool/call") none
        "2024-01-01T00:00:00Z") "uuid-1" "2024-01-02T00:00:00Z" "0.1.0-dev").id ≠ "" ∧
    (sendLogFill (RecordRpcCompletion ⟨some (.num 7),
        some (.obj [("ok", .bool true)]), none⟩ 12 none (some "tool/call") none
        "2024-01-01T00:00:00Z") "uuid-1" "2024-01-02T00:00:00Z"
        "0.1.0-dev").timestamp ≠ "" ∧
    (sendLogFill (RecordRpcCompletion ⟨some (.num 7),
        some (.obj [("ok", .bool true)]), none⟩ 12 none (some "tool/call") none
        "2024-01-01T00:00:00Z") "uuid-1" "2024-01-02T00:00:00Z"
        "0.1.0-dev").status ≠ "" := by
  have h := C8_enqueue_fill (RecordRpcCompletion ⟨some (.num 7),
    some (.obj [("ok", .bool true)]), none⟩ 12 none (some "tool/call") none
    "2024-01-01T00:00:00Z") "uuid-1" "2024-01-02T00:00:00Z" "0.1.0-dev"
    (by decide) (by decide)
  obtain ⟨-, -, -, h4, h5, -, h7, -, -, -, -, -, -, -, hp1, -⟩ := h
  refine ⟨h4, h5, ?_⟩
  rw [h7]
  exact hp1 ⟨some (.num 7), some (.obj [("ok", .bool true)]), none⟩ 12 none
    (some "tool/call") none "2024-01-01T00:00:00Z"

/-- Oracles under which every lookup fails: no environment variables, no
keyring entries, no readable files. -/
def emptyOracles : ResolveOracles :=
  ⟨fun _ => none, fun _ _ => .error "secret not found", fun _ => .error "no such file"⟩

/-- Oracles exposing the single environment variable TOK=abc. -/
def tokOracles : ResolveOracles :=
  ⟨fun k => if k = "TOK" then some "abc" else none,
   fun _ _ => .error "secret not found", fun _ => .error "no such file"⟩

/-- C7 counterexample: a placeholder with an unknown type is NOT an error —
the pattern only recognizes the types env, keyring and file, so
the input is returned verbatim with no error, even under oracles where every
recognized lookup would fail. -/
theorem C7_counterexample :
    resolveValue emptyOracles "\x7b\x7bfoo:bar\x7d\x7d" =
      ("\x7b\x7bfoo:bar\x7d\x7d", none) := by
  decide

/-- C7 (amended): a placeholder with an unknown type or malformed placeholder
syntax does not match the placeholder pattern, so it is silently left
unresolved with no error; resolution errors arise only from recognized
env/keyring/file placeholders whose lookup or value format fails — a missing
environment variable errors, a keyring value lacking the service:account
colon errors, and a recognized placeholder that resolves substitutes its
value. -/
theorem C7_placeholder_errors :
    ∀ (o : ResolveOracles),
      resolveValue o "\x7b\x7bfoo:bar\x7d\x7d" = ("\x7b\x7bfoo:bar\x7d\x7d", none) ∧
      resolveValue o "\x7b\x7benv TOK\x7d\x7d" = ("\x7b\x7benv TOK\x7d\x7d", none) ∧
      (o.lookupEnv "TOK" = none →
        (resolveValue o "\x7b\x7benv:TOK\x7d\x7d").2 =
          some "environment variable TOK not found") ∧
      ((resolveValue o "\x7b\x7bkeyring:acct\x7d\x7d").2 =
        some "invalid keyring format acct, expected service:account") ∧
      (∀ (v : String), o.lookupEnv "TOK" = some v →
        resolveValue o "\x7b\x7benv:TOK\x7d\x7d" = (v, none)) := by
  intro o
  refine ⟨rfl, rfl, ?_, ?_, ?_⟩
  · intro h
    have e : (resolveValue o "\x7b\x7benv:TOK\x7d\x7d").2 =
        (applyPlaceholder o .env "TOK" "\x7b\x7benv:TOK\x7d\x7d".toList none).2 := rfl
    rw [e]
    simp [applyPlaceholder, h]
  · have e : (resolveValue o "\x7b\x7bkeyring:acct\x7d\x7d").2 =
        (applyPlaceholder o .keyring "acct"
          "\x7b\x7bkeyring:acct\x7d\x7d".toList none).2 := rfl
    rw [e]
    simp [applyPlaceholder, splitOnColon]
  · intro v h
    have e : resolveValue o "\x7b\x7benv:TOK\x7d\x7d" =
        (String.mk ((applyPlaceholder o .env "TOK"
          "\x7b\x7benv:TOK\x7d\x7d".toList none).1 ++ []),
         (applyPlaceholder o .env "TOK"
          "\x7b\x7benv:TOK\x7d\x7d".toList none).2) := rfl
    rw [e]
    simp [applyPlaceholder, h]

/-- C7 witness: under the concrete oracles, the missing variable errors and
the present variable substitutes. -/
theorem C7_placeholder_errors_witness :
    (resolveValue emptyOracles "\x7b\x7benv:TOK\x7d\x7d").2 =
      some "environment variable TOK not found" ∧
    resolveValue tokOracles "\x7b\x7benv:TOK\x7d\x7d" = ("abc", none) :=
  ⟨(C7_placeholder_errors emptyOracles).2.2.1 rfl,
   (C7_placeholder_errors tokOracles).2.2.2.2 "abc" (by decide)⟩

/-- C1 witness: the canonicalization theorem applied at concrete ids. -/
theorem C1_canonicalization_witness :
    idToString (.str "7") = "7" ∧ idToString (.num 42) = "42" ∧
    (((ReqStore.empty.Store (.num 7) "ping" 0 none).Retrieve
      (.num 7)).1.isSome = true ↔ idToString (.num 7) = idToString (.num 7)) :=
  ⟨C1_canonicalization.1 "7",
   (C1_canonicalization.2.1 42).trans (by decide),
   C1_canonicalization.2.2 (.num 7) (.num 7) "ping" 0 none⟩

/-- C2 witness: the forwarding theorem applied to two concrete lines. -/
theorem C2_forward_before_inspect_witness :
    writesOf (stdinTrace (fun _ => none) 0 ReqStore.empty
      [['a'], ['b']]).2 = [['a', '\n'], ['b', '\n']] :=
  (C2_forward_before_inspect (fun _ => none) (fun _ => none) 0 none
    ReqStore.empty ReqStore.empty [['a'], ['b']] ['a']).1

/-- C9 witness: the nil-handle guard applied at concrete arguments. -/
theorem C9_nil_db_guard_witness :
    QueryLogs none ⟨"", "", "", ""⟩ 1 20 =
      .error "localstore: database not initialized" :=
  (C9_nil_db_guard [] none none none (fun _ => none)
    ⟨"", "", "", ""⟩ 1 20 "some-id").2.1

/-- C10 witness: the empty-filter equivalence applied at a concrete query. -/
theorem C10_empty_filters_absent_witness :
    QueryLogs (some []) ⟨"success", "", "", ""⟩ 1 20 =
      QueryLogsOpt (some []) (absentifyFilters ⟨"success", "", "", ""⟩) 1 20 :=
  C10_empty_filters_absent (some []) ⟨"success", "", "", ""⟩ 1 20
